import Mathlib

/-!
Shallow embedding of the csv-conductor library (src/src/index.ts):
the CSV generator (`sanitizeCsvValue`, `buildLabelToFieldKeyMap`,
`generateCSV`) and the browser download helper (`downloadCSV`),
together with theorems settling the specification claims.

JavaScript runtime values are modelled by the inductive `JSValue`
(numbers as integers; no function values appear inside rows).
Records (plain JS objects used as maps) are modelled as association
lists in insertion order, with `List.lookup` as property read.
-/

/-- A JavaScript runtime value, as it can appear in a row cell. -/
inductive JSValue where
  | null
  | undefined
  | bool (b : Bool)
  | num (n : Int)
  | str (s : String)
  | obj (fields : List (String × JSValue))
  | arr (elems : List JSValue)

/-- Discriminator for the JS test `v === undefined`. -/
def JSValue.isUndefined : JSValue → Bool
  | .undefined => true
  | _ => false

/-- Discriminator for the JS strict test `v === null`. -/
def JSValue.isNull : JSValue → Bool
  | .null => true
  | _ => false

/-- The JS loose test `v == null`, true exactly on null and undefined. -/
def JSValue.isNullish : JSValue → Bool
  | .null => true
  | .undefined => true
  | _ => false

/-- The JS `typeof` operator on our value model. -/
def jsTypeof : JSValue → String
  | .undefined => "undefined"
  | .null => "object"
  | .bool _ => "boolean"
  | .num _ => "number"
  | .str _ => "string"
  | .obj _ => "object"
  | .arr _ => "object"

/-- JS truthiness of a value (used by `fieldKey ?` and `v ?` tests). -/
def jsTruthy : JSValue → Bool
  | .null => false
  | .undefined => false
  | .bool b => b
  | .num n => n != 0
  | .str s => s != ""
  | .obj _ => true
  | .arr _ => true

mutual

/-- The JS `String(value)` coercion. Arrays stringify as their elements
joined by commas (with null/undefined elements becoming empty), plain
objects as the tag string. -/
def jsToString : JSValue → String
  | .null => "null"
  | .undefined => "undefined"
  | .bool b => if b then "true" else "false"
  | .num n => toString n
  | .str s => s
  | .obj _ => "[object Object]"
  | .arr xs => jsArrJoin xs

/-- `Array.prototype.join(',')` over stringified elements. -/
def jsArrJoin : List JSValue → String
  | [] => ""
  | [x] => jsElemString x
  | x :: y :: xs => jsElemString x ++ "," ++ jsArrJoin (y :: xs)

/-- Stringification of one array element: null/undefined become empty. -/
def jsElemString : JSValue → String
  | .null => ""
  | .undefined => ""
  | .bool b => if b then "true" else "false"
  | .num n => toString n
  | .str s => s
  | .obj _ => "[object Object]"
  | .arr xs => jsArrJoin xs

end

/-- JSON string-literal escaping used by `JSON.stringify` on strings. -/
def jsonEscapeChar (c : Char) : String :=
  if c = '"' then "\\\""
  else if c = '\\' then "\\\\"
  else if c = '\n' then "\\n"
  else if c = '\t' then "\\t"
  else if c = '\r' then "\\r"
  else String.singleton c

/-- A JSON string literal for `s`. -/
def jsonQuote (s : String) : String :=
  "\"" ++ String.join (s.data.map jsonEscapeChar) ++ "\""

mutual

/-- The JS `JSON.stringify(value)` serialization on our value model
(top-level undefined only ever reaches this function as an array
element, where JSON emits null). -/
def jsonStringify : JSValue → String
  | .null => "null"
  | .undefined => "null"
  | .bool b => if b then "true" else "false"
  | .num n => toString n
  | .str s => jsonQuote s
  | .arr xs => "[" ++ jsonArrElems xs ++ "]"
  | .obj fs => "\x7b" ++ jsonObjFields fs ++ "\x7d"

/-- Comma-joined JSON serializations of array elements. -/
def jsonArrElems : List JSValue → String
  | [] => ""
  | [x] => jsonStringify x
  | x :: y :: xs => jsonStringify x ++ "," ++ jsonArrElems (y :: xs)

/-- Comma-joined `key:value` pairs; fields holding undefined are
omitted, as `JSON.stringify` does. -/
def jsonObjFields : List (String × JSValue) → String
  | [] => ""
  | (_, .undefined) :: fs => jsonObjFields fs
  | (k, v) :: fs =>
      match jsonObjFields fs with
      | "" => jsonQuote k ++ ":" ++ jsonStringify v
      | rest => jsonQuote k ++ ":" ++ jsonStringify v ++ "," ++ rest

end

/-- `String.prototype.replace(/"/g, '""')` on the character list. -/
def doubleQuoteChars : List Char → List Char
  | [] => []
  | c :: rest =>
      if c = '"' then '"' :: '"' :: doubleQuoteChars rest
      else c :: doubleQuoteChars rest

/-- Double every quote character in a string. -/
def doubleQuotes (s : String) : String :=
  String.mk (doubleQuoteChars s.data)

/-- `sanitizeCsvValue` from src/src/index.ts: nullish values become the
empty quoted cell; anything else is stringified, inner quotes are
doubled, and the result is wrapped in quotes. -/
def sanitizeCsvValue (value : JSValue) : String :=
  if value.isNullish then "\"\""
  else "\"" ++ doubleQuotes (jsToString value) ++ "\""

/-- A data row: a JS record from field-key to value, as an association
list in property order; a missing key reads as undefined. -/
def Row := List (String × JSValue)

/-- The JS property read `row[k]` on a record. -/
def rowGet (row : Row) (k : String) : JSValue :=
  (List.lookup k row).getD .undefined

/-- One entry of `staticByHeader`: a literal value or a function of the
row (the source distinguishes the two by `typeof staticVal`). -/
inductive StaticEntry where
  | val (v : JSValue)
  | fn (f : Row → JSValue)

/-- The optional `rules` argument of `generateCSV`: `staticByHeader`
and `formatByHeader`, each an optional record keyed by header label. -/
structure CsvRules where
  staticByHeader : Option (List (String × StaticEntry)) := none
  formatByHeader : Option (List (String × (JSValue → Row → JSValue))) := none

/-- The JS assignment `reverse[label] = fieldKey`: overwrite the entry
for the key if present, else append it. -/
def setKey (m : List (String × String)) (k v : String) : List (String × String) :=
  match m with
  | [] => [(k, v)]
  | (k', v') :: rest => if k' = k then (k, v) :: rest else (k', v') :: setKey rest k v

/-- `buildLabelToFieldKeyMap` from src/src/index.ts: iterate the
forward map in key order and assign `reverse[label] = fieldKey`. -/
def buildLabelToFieldKeyMap (fieldLabelMap : List (String × String)) : List (String × String) :=
  fieldLabelMap.foldl (fun reverse p => setKey reverse p.2 p.1) []

/-- Step A of the cell pipeline: `labelToFieldKey[label]` followed by
the truthiness-gated read `fieldKey ? row[fieldKey] : undefined`. -/
def fieldLookup (labelToFieldKey : List (String × String)) (row : Row) (label : String) : JSValue :=
  match List.lookup label labelToFieldKey with
  | some fieldKey => if fieldKey == "" then .undefined else rowGet row fieldKey
  | none => .undefined

/-- Steps A-B and the default: field value, else static rule when the
field value is undefined and the label is a key of `staticByHeader`,
then nullish values default to the empty string. -/
def resolveRaw (labelToFieldKey : List (String × String)) (rules : Option CsvRules)
    (row : Row) (label : String) : JSValue :=
  let rawValue := fieldLookup labelToFieldKey row label
  let rawValue :=
    if rawValue.isUndefined then
      match rules.bind (fun ru => ru.staticByHeader) with
      | some sbh =>
          match List.lookup label sbh with
          | some (.val v) => v
          | some (.fn f) => f row
          | none => rawValue
      | none => rawValue
    else rawValue
  if rawValue.isNullish then .str "" else rawValue

/-- Step C: apply `rules?.formatByHeader?.[label]` when present. -/
def formatCell (rules : Option CsvRules) (row : Row) (label : String)
    (rawValue : JSValue) : JSValue :=
  match rules.bind (fun ru => ru.formatByHeader.bind (fun fbh => List.lookup label fbh)) with
  | some f => f rawValue row
  | none => rawValue

/-- Step D: non-null objects (arrays included) are JSON-serialized;
everything else passes through unchanged. -/
def printableCoerce (formatted : JSValue) : JSValue :=
  if jsTypeof formatted == "object" && !formatted.isNull
  then .str (jsonStringify formatted)
  else formatted

/-- The full per-cell pipeline of `generateCSV` for one row and one
header label: resolve, format, coerce, escape. -/
def resolveCell (labelToFieldKey : List (String × String)) (rules : Option CsvRules)
    (row : Row) (label : String) : String :=
  sanitizeCsvValue (printableCoerce (formatCell rules row label
    (resolveRaw labelToFieldKey rules row label)))

/-- The escaped header line of `generateCSV`. -/
def headerLine (orderedHeaderLabels : List String) : String :=
  String.intercalate "," (orderedHeaderLabels.map (fun label => sanitizeCsvValue (.str label)))

/-- One body line of `generateCSV`: the cells of one row in header
order, joined by commas. -/
def bodyLine (labelToFieldKey : List (String × String)) (rules : Option CsvRules)
    (orderedHeaderLabels : List String) (row : Row) : String :=
  String.intercalate "," (orderedHeaderLabels.map (resolveCell labelToFieldKey rules row))

/-- `generateCSV` from src/src/index.ts: header line, a newline, then
the body lines joined by newlines. -/
def generateCSV (rows : List Row) (fieldLabelMap : List (String × String))
    (orderedHeaderLabels : List String) (rules : Option CsvRules) : String :=
  let labelToFieldKey := buildLabelToFieldKeyMap fieldLabelMap
  let headerRow := headerLine orderedHeaderLabels
  let bodyRows := String.intercalate "\n"
    (rows.map (bodyLine labelToFieldKey rules orderedHeaderLabels))
  headerRow ++ "\n" ++ bodyRows

/-- A thrown JS error as inspected by `downloadCSV`: its `name` and
`message` properties. -/
structure JsError where
  name : String
  message : String

/-- The JS `String.prototype.includes` substring test. -/
def strContains (s pat : String) : Bool :=
  (s.splitOn pat).length != 1

/-- The abort-style test of the catch block in `downloadCSV`:
`AbortError`, or `NotAllowedError` whose message mentions a user
gesture. -/
def isAbortStyle (e : JsError) : Bool :=
  e.name == "AbortError" || (e.name == "NotAllowedError" && strContains e.message "user gesture")

/-- The host environment of one `downloadCSV` call. When the native
save capability exists, `showSaveFilePicker` carries, per content and
file name, the outcome of the awaited picker/createWritable/write/close
sequence; `anchorFallback` carries the outcome of the object-URL and
anchor-click sequence. An `Except.error` models a thrown exception. -/
structure DownloadEnv where
  showSaveFilePicker : Option (String → String → Except JsError Unit)
  anchorFallback : String → String → Except JsError Unit

/-- The observable outcome of `downloadCSV`: what the returned promise
does (`Except.ok b` for resolving to `b`, `Except.error e` for a thrown
or rejected exception), and whether the anchor fallback ran. -/
structure DownloadResult where
  outcome : Except JsError Bool
  fallbackAttempted : Bool

/-- The anchor fallback path of `downloadCSV`: its own try/catch maps
success to true and any thrown error to false. -/
def runFallback (env : DownloadEnv) (content fileName : String) : DownloadResult :=
  match env.anchorFallback content fileName with
  | .ok _ => ⟨.ok true, true⟩
  | .error _ => ⟨.ok false, true⟩

/-- `downloadCSV` from src/src/index.ts over an explicit environment:
prefer the native save dialog when the capability exists; an
abort-style error there resolves false with no fallback, any other
error falls through to the anchor fallback. -/
def downloadCSV (env : DownloadEnv) (content fileName : String) : DownloadResult :=
  match env.showSaveFilePicker with
  | some picker =>
      match picker content fileName with
      | .ok _ => ⟨.ok true, false⟩
      | .error e =>
          if isAbortStyle e then ⟨.ok false, false⟩
          else runFallback env content fileName
  | none => runFallback env content fileName

/-!
Spec-side definitions used by the theorem statements below.
-/

/-- Every quote character in the list is immediately followed by a
second quote that closes the pair: the Boolean reading of "contains no
unescaped standalone double-quote". -/
def quotesPaired : List Char → Bool
  | [] => true
  | c :: rest =>
      if c = '"' then
        match rest with
        | [] => false
        | c2 :: rest2 => c2 = '"' && quotesPaired rest2
      else quotesPaired rest

/-- Lines joined with the separator strictly between adjacent lines:
no leading and no trailing separator. -/
def joinedWithSep (sep : String) : List String → String
  | [] => ""
  | [x] => x
  | x :: y :: xs => x ++ sep ++ joinedWithSep sep (y :: xs)

/-- The row of the spec scenario: first_name Ada, active true. -/
def scenarioRow : Row := [("first_name", .str "Ada"), ("active", .bool true)]

/-- The field-label map of the spec scenario. -/
def scenarioMap : List (String × String) := [("first_name", "First Name"), ("active", "Status")]

/-- The ordered header labels of the spec scenario. -/
def scenarioHeaders : List String := ["First Name", "Country", "Status"]

/-- The rules of the spec scenario: static Country USA, Status formatted
from truthiness. -/
def scenarioRules : CsvRules :=
  { staticByHeader := some [("Country", .val (.str "USA"))],
    formatByHeader := some [("Status", fun v _ => .str (if jsTruthy v then "Active" else "Inactive"))] }

/-- A download environment without the native save capability and with
a failing anchor fallback. -/
def envFallbackFails : DownloadEnv :=
  { showSaveFilePicker := none,
    anchorFallback := fun _ _ => Except.error ⟨"SecurityError", "denied"⟩ }

/-- The picker outcome of a user-canceled native save dialog. -/
def abortPicker : String → String → Except JsError Unit :=
  fun _ _ => Except.error ⟨"AbortError", "user canceled"⟩

/-- A download environment whose native save dialog is canceled and
whose anchor fallback would succeed if it ran. -/
def envPickerAborts : DownloadEnv :=
  { showSaveFilePicker := some abortPicker,
    anchorFallback := fun _ _ => Except.ok () }

/-!
Shared helper lemmas.
-/

theorem quotesPaired_cons_ne (c : Char) (l : List Char) (hc : ¬c = '"') :
    quotesPaired (c :: l) = quotesPaired l := by
  rw [quotesPaired.eq_def]
  simp [hc]

theorem quotesPaired_doubleQuoteChars (l : List Char) :
    quotesPaired (doubleQuoteChars l) = true := by
  induction l with
  | nil => rfl
  | cons c rest ih =>
      by_cases hc : c = '"'
      · subst hc
        rw [doubleQuoteChars]
        simp only [if_pos rfl]
        rw [quotesPaired.eq_def]
        simp [ih]
      · rw [doubleQuoteChars]
        simp only [if_neg hc]
        rw [quotesPaired_cons_ne c _ hc]
        exact ih

theorem lookup_cons_pair (k' v' label : String) (rest : List (String × String)) :
    List.lookup label ((k', v') :: rest) =
      if label = k' then some v' else List.lookup label rest := by
  by_cases h : label = k'
  · have hb : (label == k') = true := beq_iff_eq.mpr h
    simp [List.lookup, hb, h]
  · have hb : (label == k') = false := beq_eq_false_iff_ne.mpr h
    simp [List.lookup, hb, h]

theorem lookup_setKey (m : List (String × String)) (k v label : String) :
    List.lookup label (setKey m k v) =
      if label = k then some v else List.lookup label m := by
  induction m with
  | nil => rw [setKey, lookup_cons_pair]
  | cons p rest ih =>
      obtain ⟨k', v'⟩ := p
      by_cases hk : k' = k
      · subst hk
        rw [setKey, if_pos rfl, lookup_cons_pair, lookup_cons_pair]
        by_cases hl : label = k' <;> simp [hl]
      · rw [setKey, if_neg hk, lookup_cons_pair, lookup_cons_pair, ih]
        by_cases hl : label = k'
        · subst hl
          rw [if_pos rfl, if_pos rfl, if_neg hk]
        · rw [if_neg hl, if_neg hl]

theorem lookup_buildLabelToFieldKeyMap (m : List (String × String)) (label : String) :
    List.lookup label (buildLabelToFieldKeyMap m) =
      (m.reverse.find? (fun p => p.2 == label)).map Prod.fst := by
  induction m using List.reverseRecOn with
  | nil => rfl
  | append_singleton m p ih =>
      obtain ⟨fk, lb⟩ := p
      have hbuild : buildLabelToFieldKeyMap (m ++ [(fk, lb)]) =
          setKey (buildLabelToFieldKeyMap m) lb fk := by
        simp [buildLabelToFieldKeyMap, List.foldl_append]
      rw [hbuild, lookup_setKey]
      by_cases h : lb = label
      · subst h
        simp [List.reverse_append, List.find?_cons, beq_iff_eq]
      · have hb : (lb == label) = false := beq_eq_false_iff_ne.mpr h
        simp [List.reverse_append, List.find?_cons, hb, Ne.symm h, ih]

theorem joinedWithSep_shift (s acc a : String) (as : List String) :
    joinedWithSep s ((acc ++ s ++ a) :: as) = acc ++ s ++ joinedWithSep s (a :: as) := by
  cases as with
  | nil => rfl
  | cons b bs =>
      simp only [joinedWithSep, String.append_assoc]

theorem intercalate_go_eq (s : String) (xs : List String) :
    ∀ acc, String.intercalate.go acc s xs = joinedWithSep s (acc :: xs) := by
  induction xs with
  | nil => intro acc; rfl
  | cons a as ih =>
      intro acc
      rw [String.intercalate.go, ih (acc ++ s ++ a), joinedWithSep_shift]
      rfl

theorem intercalate_eq_joinedWithSep (s : String) (l : List String) :
    String.intercalate s l = joinedWithSep s l := by
  cases l with
  | nil => rfl
  | cons a as => rw [String.intercalate, intercalate_go_eq]

/-!
Claim theorems.
-/

/-- C1: on the spec scenario the generator does NOT emit the trailing
line separator the spec's expected output shows. -/
theorem generateCSV_scenario_no_trailing_newline :
    generateCSV [scenarioRow] scenarioMap scenarioHeaders (some scenarioRules) ≠
      "\"First Name\",\"Country\",\"Status\"\n\"Ada\",\"USA\",\"Active\"\n" := by
  decide

/-- C1 (amended): the spec scenario produces the expected header and
data line, without a trailing line separator. -/
theorem generateCSV_scenario_output :
    generateCSV [scenarioRow] scenarioMap scenarioHeaders (some scenarioRules) =
      "\"First Name\",\"Country\",\"Status\"\n\"Ada\",\"USA\",\"Active\"" := by
  decide

/-- C2: when the field lookup yields any non-undefined value the
resolved raw value is independent of the static rules (the static entry
is neither read nor invoked), and a null field value becomes the empty
string directly. -/
theorem static_fallback_only_on_undefined
    (ltf : List (String × String)) (row : Row) (label : String)
    (h : (fieldLookup ltf row label).isUndefined = false) :
    (∀ rules1 rules2 : Option CsvRules,
        resolveRaw ltf rules1 row label = resolveRaw ltf rules2 row label) ∧
    (fieldLookup ltf row label = .null → ∀ rules : Option CsvRules,
        resolveRaw ltf rules row label = .str "") := by
  constructor
  · intro rules1 rules2
    simp [resolveRaw, h]
  · intro hn rules
    simp [resolveRaw, hn, JSValue.isUndefined, JSValue.isNullish]

theorem static_fallback_only_on_undefined_witness :
    resolveRaw [("L", "k")]
        (some { staticByHeader := some [("L", .val (.str "STATIC"))] })
        [("k", JSValue.null)] "L" = .str "" :=
  (static_fallback_only_on_undefined [("L", "k")] [("k", JSValue.null)] "L" rfl).2 rfl
    (some { staticByHeader := some [("L", .val (.str "STATIC"))] })

/-- C3: the generated string is the escaped header line, one separator,
then the body lines joined with the separator strictly between lines
(no trailing separator); the empty rows array yields the header line
followed by one separator and an empty body. -/
theorem generateCSV_line_structure (rows : List Row) (m : List (String × String))
    (H : List String) (rules : Option CsvRules) :
    generateCSV rows m H rules =
      headerLine H ++ "\n" ++
        joinedWithSep "\n" (rows.map (bodyLine (buildLabelToFieldKeyMap m) rules H)) ∧
    generateCSV [] m H rules = headerLine H ++ "\n" := by
  constructor
  · rw [generateCSV, intercalate_eq_joinedWithSep]
  · rw [generateCSV]
    simp [String.intercalate, String.append_empty]

/-- C4: every escaped cell starts and ends with a quote, its interior
quotes come only in adjacent pairs, and null and undefined both escape
to the two-character empty quoted cell. -/
theorem sanitizeCsvValue_always_quoted (v : JSValue) :
    (∃ inner : List Char,
        (sanitizeCsvValue v).data = '"' :: (inner ++ ['"']) ∧ quotesPaired inner = true) ∧
    sanitizeCsvValue .null = "\"\"" ∧ sanitizeCsvValue .undefined = "\"\"" := by
  refine ⟨?_, rfl, rfl⟩
  by_cases h : v.isNullish = true
  · refine ⟨[], ?_, rfl⟩
    rw [sanitizeCsvValue, if_pos h]
    rfl
  · refine ⟨doubleQuoteChars (jsToString v).data, ?_, quotesPaired_doubleQuoteChars _⟩
    rw [sanitizeCsvValue, if_neg h, String.data_append, String.data_append]
    simp [doubleQuotes]

/-- C5: the download transport never lets an exception cross to the
caller: the promise always resolves to a boolean, and in particular a
throwing anchor fallback resolves it to false. -/
theorem downloadCSV_never_throws (env : DownloadEnv) (content fileName : String) :
    (∃ b : Bool, (downloadCSV env content fileName).outcome = Except.ok b) ∧
    (∀ e : JsError, env.anchorFallback content fileName = Except.error e →
      (downloadCSV env content fileName).fallbackAttempted = true →
      (downloadCSV env content fileName).outcome = Except.ok false) := by
  cases hp : env.showSaveFilePicker with
  | none =>
      cases hf : env.anchorFallback content fileName with
      | ok u => exact ⟨⟨true, by simp [downloadCSV, runFallback, hp, hf]⟩,
          fun e he _ => Except.noConfusion he⟩
      | error e0 => exact ⟨⟨false, by simp [downloadCSV, runFallback, hp, hf]⟩,
          fun e he _ => by simp [downloadCSV, runFallback, hp, hf]⟩
  | some picker =>
      cases hr : picker content fileName with
      | ok u => exact ⟨⟨true, by simp [downloadCSV, hp, hr]⟩,
          fun e he hfb => by simp [downloadCSV, hp, hr] at hfb⟩
      | error e0 =>
          by_cases ha : isAbortStyle e0 = true
          · exact ⟨⟨false, by simp [downloadCSV, hp, hr, ha]⟩,
              fun e he hfb => by simp [downloadCSV, hp, hr, ha] at hfb⟩
          · cases hf : env.anchorFallback content fileName with
            | ok u => exact ⟨⟨true, by simp [downloadCSV, runFallback, hp, hr, ha, hf]⟩,
                fun e he _ => Except.noConfusion he⟩
            | error e1 => exact ⟨⟨false, by simp [downloadCSV, runFallback, hp, hr, ha, hf]⟩,
                fun e he _ => by simp [downloadCSV, runFallback, hp, hr, ha, hf]⟩

theorem downloadCSV_never_throws_witness :
    (∃ b : Bool, (downloadCSV envFallbackFails "a,b\n" "x.csv").outcome = Except.ok b) ∧
    (downloadCSV envFallbackFails "a,b\n" "x.csv").outcome = Except.ok false :=
  ⟨(downloadCSV_never_throws envFallbackFails "a,b\n" "x.csv").1,
   (downloadCSV_never_throws envFallbackFails "a,b\n" "x.csv").2
     ⟨"SecurityError", "denied"⟩ rfl rfl⟩

/-- C6: with duplicate labels in the forward map, the reverse index
keeps the field-key encountered last, and the cell for that label is
read from that last-seen field-key. -/
theorem generateCSV_last_duplicate_wins
    (m : List (String × String)) (label fieldKey : String)
    (h : (m.reverse.find? (fun p => p.2 == label)).map Prod.fst = some fieldKey) :
    List.lookup label (buildLabelToFieldKeyMap m) = some fieldKey ∧
    (∀ (rules : Option CsvRules) (row : Row),
        resolveCell (buildLabelToFieldKeyMap m) rules row label =
        resolveCell [(label, fieldKey)] rules row label) := by
  have hm : List.lookup label (buildLabelToFieldKeyMap m) = some fieldKey := by
    rw [lookup_buildLabelToFieldKeyMap, h]
  refine ⟨hm, fun rules row => ?_⟩
  have hl : List.lookup label (buildLabelToFieldKeyMap m) =
      List.lookup label [(label, fieldKey)] := by
    rw [hm, lookup_cons_pair, if_pos rfl]
  have hf : fieldLookup (buildLabelToFieldKeyMap m) row label =
      fieldLookup [(label, fieldKey)] row label := by
    rw [fieldLookup, fieldLookup, hl]
  rw [resolveCell, resolveCell, resolveRaw, resolveRaw, hf]

theorem generateCSV_last_duplicate_wins_witness :
    List.lookup "L" (buildLabelToFieldKeyMap [("k1", "L"), ("k2", "L")]) = some "k2" ∧
    resolveCell (buildLabelToFieldKeyMap [("k1", "L"), ("k2", "L")]) none
        [("k1", JSValue.str "first"), ("k2", JSValue.str "second")] "L" =
      resolveCell [("L", "k2")] none
        [("k1", JSValue.str "first"), ("k2", JSValue.str "second")] "L" :=
  ⟨(generateCSV_last_duplicate_wins [("k1", "L"), ("k2", "L")] "L" "k2" (by decide)).1,
   (generateCSV_last_duplicate_wins [("k1", "L"), ("k2", "L")] "L" "k2" (by decide)).2
     none [("k1", JSValue.str "first"), ("k2", JSValue.str "second")]⟩

/-- C7: after formatting, a non-null object (arrays included) is
JSON-serialized before escaping while any other value passes to the
escaping step unconverted, and each cell of the generator is exactly
the escape of the printable coercion of the formatted resolved value. -/
theorem printableCoerce_objects_json (v : JSValue) :
    (jsTypeof v = "object" → v.isNull = false → printableCoerce v = .str (jsonStringify v)) ∧
    (jsTypeof v ≠ "object" → printableCoerce v = v) ∧
    (∀ (ltf : List (String × String)) (rules : Option CsvRules) (row : Row) (label : String),
        resolveCell ltf rules row label =
        sanitizeCsvValue (printableCoerce (formatCell rules row label
          (resolveRaw ltf rules row label)))) := by
  refine ⟨fun h1 h2 => ?_, fun h => ?_, fun ltf rules row label => rfl⟩
  · rw [printableCoerce, beq_iff_eq.mpr h1, h2]
    rfl
  · rw [printableCoerce, beq_eq_false_iff_ne.mpr h]
    rfl

theorem printableCoerce_objects_json_witness :
    printableCoerce (JSValue.arr [.num 1, .str "x"]) =
      .str (jsonStringify (JSValue.arr [.num 1, .str "x"])) ∧
    printableCoerce (JSValue.num 7) = JSValue.num 7 :=
  ⟨(printableCoerce_objects_json (JSValue.arr [.num 1, .str "x"])).1 rfl rfl,
   (printableCoerce_objects_json (JSValue.num 7)).2.1 (by decide)⟩

/-- C8: an abort-style error from the native save capability (user
cancel, or permission denied for lack of a user gesture) makes the call
resolve false immediately, without attempting the anchor fallback. -/
theorem downloadCSV_abort_no_fallback
    (env : DownloadEnv) (picker : String → String → Except JsError Unit)
    (content fileName : String) (e : JsError)
    (hp : env.showSaveFilePicker = some picker)
    (he : picker content fileName = Except.error e)
    (ha : isAbortStyle e = true) :
    (downloadCSV env content fileName).outcome = Except.ok false ∧
    (downloadCSV env content fileName).fallbackAttempted = false := by
  constructor <;> simp [downloadCSV, hp, he, ha]

theorem downloadCSV_abort_no_fallback_witness :
    (downloadCSV envPickerAborts "a,b\n" "x.csv").outcome = Except.ok false ∧
    (downloadCSV envPickerAborts "a,b\n" "x.csv").fallbackAttempted = false :=
  downloadCSV_abort_no_fallback envPickerAborts abortPicker "a,b\n" "x.csv"
    ⟨"AbortError", "user canceled"⟩ rfl rfl (by decide)

/-- C9: the empty string escapes to the same two-character cell as null
and undefined, any value whose string representation is empty does too,
and the escaping function is not injective. -/
theorem sanitizeCsvValue_empty_collision :
    sanitizeCsvValue (.str "") = "\"\"" ∧
    sanitizeCsvValue .null = sanitizeCsvValue (.str "") ∧
    sanitizeCsvValue .undefined = sanitizeCsvValue (.str "") ∧
    (∀ v : JSValue, jsToString v = "" → sanitizeCsvValue v = "\"\"") ∧
    ¬ Function.Injective sanitizeCsvValue := by
  refine ⟨by decide, by decide, by decide, fun v h => ?_, fun hinj => ?_⟩
  · by_cases hn : v.isNullish = true
    · rw [sanitizeCsvValue, if_pos hn]
    · rw [sanitizeCsvValue, if_neg hn, h]
      decide
  · have h2 : JSValue.null = JSValue.undefined :=
      hinj (rfl : sanitizeCsvValue .null = sanitizeCsvValue .undefined)
    exact JSValue.noConfusion h2

theorem sanitizeCsvValue_empty_collision_witness :
    sanitizeCsvValue (JSValue.arr []) = "\"\"" :=
  sanitizeCsvValue_empty_collision.2.2.2.1 (JSValue.arr []) rfl

/-- C10: the field read is gated on the truthiness of the reverse-mapped
field-key: a label whose reverse mapping is the empty-string field-key
never reads the row and is resolved exactly as an unmapped label. -/
theorem emptyString_fieldKey_as_unmapped
    (ltf : List (String × String)) (label : String)
    (h : List.lookup label ltf = some "") :
    (∀ row : Row, fieldLookup ltf row label = .undefined) ∧
    (∀ (rules : Option CsvRules) (row : Row),
        resolveCell ltf rules row label = resolveCell [] rules row label) := by
  have hf : ∀ row : Row, fieldLookup ltf row label = .undefined := by
    intro row
    rw [fieldLookup, h]
    rfl
  refine ⟨hf, fun rules row => ?_⟩
  have he : fieldLookup ltf row label = fieldLookup [] row label := by
    rw [hf row, fieldLookup]
    rfl
  rw [resolveCell, resolveCell, resolveRaw, resolveRaw, he]

theorem emptyString_fieldKey_as_unmapped_witness :
    fieldLookup [("L", "")] [("", JSValue.str "x")] "L" = JSValue.undefined ∧
    resolveCell [("L", "")] none [("", JSValue.str "x")] "L" =
      resolveCell [] none [("", JSValue.str "x")] "L" :=
  ⟨(emptyString_fieldKey_as_unmapped [("L", "")] "L" (by decide)).1 [("", JSValue.str "x")],
   (emptyString_fieldKey_as_unmapped [("L", "")] "L" (by decide)).2 none [("", JSValue.str "x")]⟩
